import Mathlib

/-! Location registry, variable store, weather clients and CSV export.

A shallow embedding of `Task # 1.cpp` and the properties of its classes
`LocationManager`, `WeatherVariable`, `WeatherForecastingSystem`,
`HistoricalWeatherSystem` and of `exportToCSV`.

Conventions of the embedding
* `std::string` names are `String`; response bodies are `List Char` (one `Char` per byte).
* `double` is kept as its 64-bit pattern: the program only stores, copies, prints and
  compares doubles with `0.0`, it never computes with them.
* The text `operator<<` inserts for a `double` is library behaviour; every printing
  function takes it as the parameter `fmt`.
* `std::cout` / `std::cerr` traffic is returned as a list of `(channel, text)` pairs, one pair
  per output statement, `std::endl` written as a line feed.
-/

namespace WeatherTask

/-! ## Doubles and output -/

/-- An IEEE-754 binary64 value, as its bit pattern. -/
structure Double where
  bits : Fin (2 ^ 64)
  deriving DecidableEq

/-- The literal `0.0`. -/
def Double.zero : Double := ⟨0⟩

/-- The comparison `value != 0.0`: false exactly on `+0.0` and `-0.0` (a NaN compares unequal). -/
def Double.neZero (d : Double) : Bool := d.bits.val % 2 ^ 63 != 0

/-- The literal `75.0` (sign 0, exponent `0x405`, fraction `0x2C00000000000`). -/
def Double.d75 : Double := ⟨0x4052C00000000000⟩

/-- The two standard streams the program writes to. -/
inductive Channel
  | cout
  | cerr
  deriving DecidableEq

/-- Everything written to the standard streams, in order. -/
abbrev Output := List (Channel × String)

/-! ## Location and LocationManager -/

/-- The class `Location`: a name and two coordinates. -/
structure Location where
  name : String
  latitude : Double
  longitude : Double
  deriving DecidableEq

/-- The accessor `Location::getName`. -/
def Location.getName (loc : Location) : String := loc.name

/-- The accessor `Location::getLatitude`. -/
def Location.getLatitude (loc : Location) : Double := loc.latitude

/-- The accessor `Location::getLongitude`. -/
def Location.getLongitude (loc : Location) : Double := loc.longitude

/-- The class `LocationManager`: the vector `locations`. -/
structure LocationManager where
  locations : List Location
  deriving DecidableEq

/-- Library function `std::find_if` over a whole vector: index of the first element satisfying `p`,
the length of the vector (the end iterator) when there is none. -/
def find_if {α : Type} (p : α → Bool) : List α → Nat
  | [] => 0
  | x :: xs => if p x then 0 else find_if p xs + 1

/-- The compaction loop of `std::remove_if`,
`for (i = first; ++i != last;) if (!p(*i)) *first++ = std::move(*i);`
with `last` the end of the vector. `i` and `first` are indices into `v`; the first argument
bounds the number of iterations. The moved-from slot is left as it was: it is read no more. -/
def remove_if_loop {α : Type} (p : α → Bool) : Nat → Nat → Nat → List α → List α × Nat
  | 0, _, first, v => (v, first)
  | fuel + 1, i, first, v =>
    if i + 1 = v.length then (v, first)
    else
      match v.get? (i + 1) with
      | none => (v, first)
      | some x =>
        if !p x then remove_if_loop p fuel (i + 1) (first + 1) (v.set first x)
        else remove_if_loop p fuel (i + 1) first v

/-- Library function `std::remove_if` over a whole vector: the vector after compaction and the index of the
new logical end. Elements from that index on are left in an unspecified state. -/
def remove_if {α : Type} (p : α → Bool) (v : List α) : List α × Nat :=
  let first := find_if p v
  if first ≠ v.length then remove_if_loop p v.length first first v
  else (v, first)

/-- Method `LocationManager::addLocation`: `locations.push_back(loc)`. -/
def LocationManager.addLocation (m : LocationManager) (loc : Location) : LocationManager :=
  { locations := m.locations ++ [loc] }

/-- Method `LocationManager::removeLocation`: `remove_if` on the name, then `erase(it, end)` and the
success message when the returned iterator is not the end, the not-found message otherwise. -/
def LocationManager.removeLocation (m : LocationManager) (name : String) :
    LocationManager × Output :=
  let r := remove_if (fun loc : Location => loc.getName == name) m.locations
  if r.2 ≠ r.1.length then
    ({ locations := r.1.take r.2 }, [(Channel.cout, "Location Removed Successfully.\n")])
  else
    ({ locations := r.1 }, [(Channel.cout, "Location Not Found.\n")])

/-- Method `LocationManager::listLocations`: the explicit message on an empty vector, one line per
location otherwise. -/
def LocationManager.listLocations (fmt : Double → String) (m : LocationManager) : Output :=
  if m.locations.isEmpty then [(Channel.cout, "No Locations Defined.\n")]
  else
    m.locations.map fun loc =>
      (Channel.cout, "Name: " ++ loc.getName ++ ", Latitude: " ++ fmt loc.getLatitude
        ++ ", Longitude: " ++ fmt loc.getLongitude ++ "\n")

/-- The notice `listLocations` prints for an empty registry. -/
def noLocationsNotice : Channel × String := (Channel.cout, "No Locations Defined.\n")

/-- The line `listLocations` prints for one location. -/
def locationLine (fmt : Double → String) (loc : Location) : Channel × String :=
  (Channel.cout, "Name: " ++ loc.name ++ ", Latitude: " ++ fmt loc.latitude
    ++ ", Longitude: " ++ fmt loc.longitude ++ "\n")

/-! ## WeatherVariable -/

/-- The class `WeatherVariable`: the map `variables`, here the field `vars`. A
`std::unordered_map` holds one entry per key; the list holds the entries of the map. The order
in which the map is iterated is left to the library: where the program iterates
(`listVariables`), that order is the parameter `iter`, not the order of the list. -/
structure WeatherVariable where
  vars : List (String × Double)
  deriving DecidableEq

/-- The container invariant of `std::unordered_map`: no key occurs twice. -/
def WeatherVariable.UniqueKeys (w : WeatherVariable) : Prop :=
  (w.vars.map Prod.fst).Nodup

instance (w : WeatherVariable) : Decidable w.UniqueKeys := by
  unfold WeatherVariable.UniqueKeys; infer_instance

/-- The call `variables.find(name)`: the value of the entry with key `name` (`it->second`), `none` for the
end iterator. -/
def mapFind (name : String) : List (String × Double) → Option Double
  | [] => none
  | e :: es => if e.1 == name then some e.2 else mapFind name es

/-- The assignment through the reference `variables[name]` when the key is present: the entry
found gets the new value, in place. -/
def mapOverwrite (name : String) (value : Double) :
    List (String × Double) → List (String × Double)
  | [] => []
  | e :: es => if e.1 == name then (e.1, value) :: es else e :: mapOverwrite name value es

/-- The statement `variables[name] = value`: overwrite the entry with key `name` in place, insert
a new entry when there is none. The new entry is put first, where libstdc++ iterates a key
inserted into an empty bucket. -/
def mapAssign (name : String) (value : Double) (l : List (String × Double)) :
    List (String × Double) :=
  match mapFind name l with
  | some _ => mapOverwrite name value l
  | none => (name, value) :: l

/-- The call `variables.erase(it)` for `it = variables.find(name)`: drop the entry found. -/
def mapErase (name : String) : List (String × Double) → List (String × Double)
  | [] => []
  | e :: es => if e.1 == name then es else e :: mapErase name es

/-- Method `WeatherVariable::defineVariable`. -/
def WeatherVariable.defineVariable (w : WeatherVariable) (name : String) (value : Double) :
    WeatherVariable :=
  { vars := mapAssign name value w.vars }

/-- Method `WeatherVariable::getVariable`: the stored value when `find` succeeds; otherwise the
diagnostic on `std::cerr` and the return value `0.0`. -/
def WeatherVariable.getVariable (w : WeatherVariable) (name : String) : Double × Output :=
  match mapFind name w.vars with
  | some value => (value, [])
  | none => (Double.zero, [(Channel.cerr, "Variable " ++ name ++ " not found.\n")])

/-- Method `WeatherVariable::removeVariable`: erase and confirm when `find` succeeds; otherwise the
diagnostic on `std::cerr`. -/
def WeatherVariable.removeVariable (w : WeatherVariable) (name : String) :
    WeatherVariable × Output :=
  match mapFind name w.vars with
  | some _ =>
    ({ vars := mapErase name w.vars },
      [(Channel.cout, "Variable removed successfully.\n")])
  | none => (w, [(Channel.cerr, "Variable " ++ name ++ " not found, cannot remove.\n")])

/-- Method `WeatherVariable::listVariables`: the notice on an empty map, one line per entry
otherwise. The parameter `iter` gives the order in which the range-based `for` visits the
entries of the `std::unordered_map`, which the library decides. -/
def WeatherVariable.listVariables (fmt : Double → String)
    (iter : List (String × Double) → List (String × Double)) (w : WeatherVariable) : Output :=
  if w.vars.isEmpty then [(Channel.cout, "No weather variables defined.\n")]
  else
    (iter w.vars).map fun var =>
      (Channel.cout, "Variable: " ++ var.1 ++ ", Value: " ++ fmt var.2 ++ "\n")

/-- The least value of the type `int` of the variable `choice`. -/
def INT_MIN : Int := -2147483648

/-- The greatest value of the type `int` of the variable `choice`. -/
def INT_MAX : Int := 2147483647

/-- What one pass of the menu loop finds on `std::cin`: the integer that `std::cin >> choice`
meets, and the operands read after it, `name` by cases 1, 2 and 3, `value` by case 1. A pass
that reads no operand ignores the operand fields. The integer is the one written in the input:
`choice` is an `int`, and an integer outside `INT_MIN .. INT_MAX` makes the extraction fail. -/
structure MenuInput where
  choice : Int
  name : String
  value : Double
  deriving DecidableEq

/-- The menu text printed at the top of every pass of the loop. -/
def menuText : Output :=
  [(Channel.cout, "\nWeather Variable Manager Menu\n"),
   (Channel.cout, "1. Add/Update Variable\n"),
   (Channel.cout, "2. Retrieve Variable\n"),
   (Channel.cout, "3. Remove Variable\n"),
   (Channel.cout, "4. List All Variables\n"),
   (Channel.cout, "5. Exit\n"),
   (Channel.cout, "Enter your choice: ")]

/-- The `switch (choice)` of `WeatherVariable::menu`. -/
def WeatherVariable.menuSwitch (fmt : Double → String)
    (iter : List (String × Double) → List (String × Double)) (w : WeatherVariable)
    (inp : MenuInput) : WeatherVariable × Output :=
  if inp.choice = 1 then
    (w.defineVariable inp.name inp.value,
      [(Channel.cout, "Enter variable name: "), (Channel.cout, "Enter variable value: "),
       (Channel.cout, "Variable added/updated successfully.\n")])
  else if inp.choice = 2 then
    let r := w.getVariable inp.name
    (w, (Channel.cout, "Enter variable name to retrieve: ") :: r.2 ++
      (if r.1.neZero then [(Channel.cout, "Variable value: " ++ fmt r.1 ++ "\n")] else []))
  else if inp.choice = 3 then
    let r := w.removeVariable inp.name
    (r.1, (Channel.cout, "Enter variable name to remove: ") :: r.2)
  else if inp.choice = 4 then (w, w.listVariables fmt iter)
  else if inp.choice = 5 then (w, [(Channel.cout, "Exiting the program.\n")])
  else (w, [(Channel.cout, "Invalid choice. Please try again.\n")])

/-- Method `WeatherVariable::menu`: the `do ... while (choice != 5)` loop over the passes the input
provides. The result is the store, the output and the unread input when the loop ends. It is
`none` where the loop of the program does not end: when the input runs out before a choice 5,
and when `std::cin >> choice` meets an integer that does not fit `int`. That extraction stores
`INT_MAX` or `INT_MIN` and sets the fail state of the stream, no later extraction reads
anything, and every further pass takes the `default` branch with `choice != 5`. -/
def WeatherVariable.menu (fmt : Double → String)
    (iter : List (String × Double) → List (String × Double)) :
    WeatherVariable → List MenuInput → Option (WeatherVariable × Output × List MenuInput)
  | _, [] => none
  | w, inp :: rest =>
    if inp.choice < INT_MIN ∨ INT_MAX < inp.choice then none
    else
      let r := w.menuSwitch fmt iter inp
      if inp.choice ≠ 5 then
        (WeatherVariable.menu fmt iter r.1 rest).map fun res =>
          (res.1, menuText ++ r.2 ++ res.2.1, res.2.2)
      else some (r.1, menuText ++ r.2, rest)

/-! ## WeatherForecastingSystem and HistoricalWeatherSystem -/

/-- The type `CURLcode`. -/
abbrev CURLcode := Nat

/-- The success code `CURLE_OK`. -/
def CURLE_OK : CURLcode := 0

/-- The code `CURLE_WRITE_ERROR`. -/
def CURLE_WRITE_ERROR : CURLcode := 23

/-- One delivery of body data to the write callback: the bytes at `contents` and the two
counts passed with them. -/
structure Chunk where
  contents : List Char
  size : Nat
  nmemb : Nat
  deriving DecidableEq

/-- What the transport does with one request: whether `curl_easy_init` hands out a handle, the
chunks the transfer delivers, and the code `curl_easy_perform` ends with. -/
structure Transfer where
  handle : Bool
  chunks : List Chunk
  status : CURLcode
  deriving DecidableEq

/-- The callback `WriteCallback`: append `size * nmemb` bytes of `contents` to the string behind `userp` and
return `size * nmemb`, a `size_t` product. -/
def WriteCallback (contents : List Char) (size nmemb : Nat) (userp : List Char) :
    List Char × Nat :=
  (userp ++ contents.take (size * nmemb % 2 ^ 64), size * nmemb % 2 ^ 64)

/-- The contract of `curl_easy_perform` with a write callback installed: the chunks go to the
callback in order; a callback that returns another number than the bytes passed aborts the
transfer with `CURLE_WRITE_ERROR`; otherwise the transfer ends with its own status. -/
def curl_easy_perform (cb : List Char → Nat → Nat → List Char → List Char × Nat) :
    List Chunk → CURLcode → List Char → List Char × CURLcode
  | [], status, userp => (userp, status)
  | c :: cs, status, userp =>
    let r := cb c.contents c.size c.nmemb userp
    if r.2 = c.contents.length then curl_easy_perform cb cs status r.1
    else (r.1, CURLE_WRITE_ERROR)

/-- The request made by both clients once the URL is built. `resInit` is the indeterminate value
the variable `res` holds when no handle was obtained; `strerror` is `curl_easy_strerror`. -/
def httpGet (net : String → Transfer) (strerror : CURLcode → String) (resInit : CURLcode)
    (url : String) : List Char × Output :=
  let t := net url
  let r := if t.handle then curl_easy_perform WriteCallback t.chunks t.status [] else ([], resInit)
  if r.2 ≠ CURLE_OK then
    ([], [(Channel.cerr, "curl_easy_perform() failed: " ++ strerror r.2 ++ "\n")])
  else (r.1, [])

/-- The URL built by `WeatherForecastingSystem::fetchWeather`. -/
def fetchWeatherUrl (location : String) : String :=
  "https://api.open-meteo.com/v1/forecast?latitude=" ++ location ++ "&longitude=..."

/-- The URL built by `HistoricalWeatherSystem::fetchHistoricalData`. -/
def fetchHistoricalDataUrl (location date : String) : String :=
  "https://api.open-meteo.com/v1/history?latitude=" ++ location ++ "&longitude=..." ++ "&date="
    ++ date

/-- Method `WeatherForecastingSystem::fetchWeather`. -/
def fetchWeather (net : String → Transfer) (strerror : CURLcode → String) (resInit : CURLcode)
    (location : String) : List Char × Output :=
  httpGet net strerror resInit (fetchWeatherUrl location)

/-- Method `HistoricalWeatherSystem::fetchHistoricalData`. -/
def fetchHistoricalData (net : String → Transfer) (strerror : CURLcode → String)
    (resInit : CURLcode) (location date : String) : List Char × Output :=
  httpGet net strerror resInit (fetchHistoricalDataUrl location date)

/-! ## Export -/

/-- The function `exportToCSV`: `canOpen` tells whether the `std::ofstream` on a path opens. The result is
the text written to the file, `none` when no file was written; `data` is the mapping in its
iteration order. -/
def exportToCSV (fmt : Double → String) (canOpen : String → Bool) (filename : String)
    (data : List (String × Double)) : Option String × Output :=
  if canOpen filename then
    (some (data.foldl (fun file pair => file ++ pair.1 ++ "," ++ fmt pair.2 ++ "\n")
      "Variable,Value\n"), [])
  else (none, [(Channel.cerr, "Unable to open file for writing.\n")])

/-- The record `exportToCSV` writes for one entry of the mapping. -/
def csvRecord (fmt : Double → String) (pair : String × Double) : String :=
  pair.1 ++ "," ++ fmt pair.2 ++ "\n"

/-- The texts of a list, one after the other. -/
def concatText : List String → String
  | [] => ""
  | t :: ts => t ++ concatText ts

/-- The bytes of a list of chunks, one chunk after the other. -/
def concatChunks : List Chunk → List Char
  | [] => []
  | c :: cs => c.contents ++ concatChunks cs

section VectorAlgorithms

variable {α : Type}

theorem find_if_le (p : α → Bool) (v : List α) : find_if p v ≤ v.length := by
  induction v with
  | nil => simp [find_if]
  | cons x xs ih =>
    by_cases h : p x = true
    · simp [find_if, h]
    · simp [find_if, h, ih]

theorem find_if_eq_length (p : α → Bool) (v : List α) :
    find_if p v = v.length ↔ ∀ x ∈ v, p x = false := by
  induction v with
  | nil => simp [find_if]
  | cons x xs ih =>
    by_cases h : p x = true
    · simp [find_if, h]
    · simp [find_if, h, ih]

theorem find_if_kept (p : α → Bool) (v : List α) (h : find_if p v < v.length) :
    (v.take (find_if p v + 1)).filter (fun x => !p x) = v.take (find_if p v) := by
  induction v with
  | nil => simp [find_if] at h
  | cons x xs ih =>
    by_cases hx : p x = true
    · simp [find_if, hx]
    · have h2 : find_if p xs < xs.length := by
        simpa [find_if, hx] using h
      simp only [find_if, hx, Bool.false_eq_true, if_false, List.take_succ_cons]
      rw [List.filter_cons]
      simp [hx, ih h2]

theorem take_succ_set (v : List α) (n : Nat) (x : α) (h : n < v.length) :
    (v.set n x).take (n + 1) = v.take n ++ [x] := by
  induction v generalizing n with
  | nil => simp at h
  | cons y ys ih =>
    cases n with
    | zero => simp
    | succ k =>
      have hk : k < ys.length := by simpa using h
      simp [ih k hk]

theorem drop_set_of_lt (v : List α) (n m : Nat) (x : α) (h : n < m) :
    (v.set n x).drop m = v.drop m := by
  induction v generalizing n m with
  | nil => simp
  | cons y ys ih =>
    cases m with
    | zero => omega
    | succ k =>
      cases n with
      | zero => simp
      | succ j => simp [ih j k (by omega)]

theorem take_succ_of_get? (v : List α) (n : Nat) (x : α) (h : v.get? n = some x) :
    v.take (n + 1) = v.take n ++ [x] := by
  induction v generalizing n with
  | nil => simp at h
  | cons y ys ih =>
    cases n with
    | zero => simp at h; simp [h]
    | succ k => simp at h; simp [ih k (by simpa using h)]

theorem get?_eq_of_drop_eq (v w : List α) (n : Nat) (h : v.drop n = w.drop n) :
    v.get? n = w.get? n := by
  have hv : v.get? n = (v.drop n).get? 0 := by simp
  have hw : w.get? n = (w.drop n).get? 0 := by simp
  rw [hv, hw, h]

/-- Invariant of the compaction loop: with the first `first` slots holding the kept elements of
the scanned prefix and the unscanned suffix untouched, the loop ends with the kept elements
of the whole vector in its first slots. -/
theorem remove_if_loop_spec (p : α → Bool) (orig : List α) :
    ∀ (fuel i first : Nat) (v : List α),
      v.length = orig.length → first ≤ i → i < v.length → v.length ≤ i + 1 + fuel →
      v.take first = (orig.take (i + 1)).filter (fun x => !p x) →
      v.drop (i + 1) = orig.drop (i + 1) →
      (remove_if_loop p fuel i first v).1.length = orig.length ∧
      (remove_if_loop p fuel i first v).1.take (remove_if_loop p fuel i first v).2
        = orig.filter (fun x => !p x) := by
  intro fuel
  induction fuel with
  | zero =>
    intro i first v hlen hfi hi hfuel htake hdrop
    have hi1 : i + 1 = orig.length := by omega
    simp only [remove_if_loop]
    refine ⟨hlen, ?_⟩
    rw [htake, hi1, List.take_length]
  | succ fuel ih =>
    intro i first v hlen hfi hi hfuel htake hdrop
    by_cases hend : i + 1 = v.length
    · simp only [remove_if_loop, hend, if_true]
      refine ⟨hlen, ?_⟩
      have : orig.take (i + 1) = orig := by rw [hend, hlen, List.take_length]
      rw [htake, this]
    · have hlt : i + 1 < v.length := by omega
      obtain ⟨x, hget⟩ : ∃ x, v.get? (i + 1) = some x := ⟨_, List.get?_eq_get hlt⟩
      have hgeto : orig.get? (i + 1) = some x := by
        rw [← get?_eq_of_drop_eq v orig (i + 1) hdrop, hget]
      have htk : orig.take (i + 1 + 1) = orig.take (i + 1) ++ [x] :=
        take_succ_of_get? orig (i + 1) _ hgeto
      have hdr : v.drop (i + 1 + 1) = orig.drop (i + 1 + 1) := by
        have := congrArg (List.drop 1) hdrop
        simpa [List.drop_drop, Nat.add_comm] using this
      simp only [remove_if_loop, hend, if_false, hget]
      by_cases hp : p x = true
      · simp only [hp, Bool.not_true, Bool.false_eq_true, if_false]
        apply ih (i + 1) first v hlen (by omega) hlt (by omega)
        · rw [htk, List.filter_append, htake]
          simp [List.filter_cons, hp]
        · exact hdr
      · have hp2 : p x = false := by simpa using hp
        simp only [hp2, Bool.not_false, if_true]
        apply ih (i + 1) (first + 1) (v.set first x)
          (by simpa using hlen) (by omega) (by simpa using hlt) (by simp; omega)
        · rw [take_succ_set v first _ (by omega), htk, List.filter_append, htake]
          simp [List.filter_cons, hp2]
        · rw [drop_set_of_lt v first (i + 1 + 1) _ (by omega)]; exact hdr

/-- What `std::remove_if` computes: the elements failing `p`, in order, fill the slots before the
returned index. -/
theorem remove_if_spec (p : α → Bool) (v : List α) :
    (remove_if p v).1.length = v.length ∧
    (remove_if p v).1.take (remove_if p v).2 = v.filter (fun x => !p x) := by
  by_cases h : find_if p v = v.length
  · have hall := (find_if_eq_length p v).1 h
    simp only [remove_if, h, ne_eq, not_true_eq_false, if_false, List.take_length, true_and]
    symm
    rw [List.filter_eq_self]
    intro x hx
    simp [hall x hx]
  · have hlt : find_if p v < v.length := lt_of_le_of_ne (find_if_le p v) h
    simp only [remove_if, ne_eq, h, not_false_eq_true, if_true]
    exact remove_if_loop_spec p v v.length (find_if p v) (find_if p v) v rfl (le_refl _) hlt
      (by omega) (find_if_kept p v hlt).symm rfl

end VectorAlgorithms

/-! ## LocationManager -/

theorem removeLocation_locations (m : LocationManager) (name : String) :
    (m.removeLocation name).1.locations = m.locations.filter (fun loc => loc.name != name) := by
  have hs := remove_if_spec (fun loc : Location => loc.getName == name) m.locations
  have hf : m.locations.filter (fun loc => !(loc.getName == name))
      = m.locations.filter (fun loc => loc.name != name) := rfl
  by_cases h : (remove_if (fun loc : Location => loc.getName == name) m.locations).2
      = (remove_if (fun loc : Location => loc.getName == name) m.locations).1.length
  · simp only [LocationManager.removeLocation, h, ne_eq, not_true_eq_false, if_false]
    rw [← hf, ← hs.2, h, List.take_length]
  · simp only [LocationManager.removeLocation, h, ne_eq, not_false_eq_true, if_true]
    rw [← hf, ← hs.2]

theorem removeLocation_absent (m : LocationManager) (name : String)
    (h : ∀ loc ∈ m.locations, loc.name ≠ name) :
    m.removeLocation name = (m, [(Channel.cout, "Location Not Found.\n")]) := by
  have hfind : find_if (fun loc : Location => loc.getName == name) m.locations
      = m.locations.length := by
    rw [find_if_eq_length]
    intro loc hloc
    simpa [Location.getName] using h loc hloc
  simp [LocationManager.removeLocation, remove_if, hfind]

theorem foldl_addLocation (locs : List Location) (m : LocationManager) :
    (locs.foldl LocationManager.addLocation m).locations = m.locations ++ locs := by
  induction locs generalizing m with
  | nil => simp
  | cons loc rest ih => simp [ih, LocationManager.addLocation]

/-- C1: `removeLocation name` leaves exactly the entries whose name differs from `name`, in
their original relative order, so no entry named `name` is left; after adding two locations
named `name`, removing `name` leaves what removing it from the registry before the two
additions leaves. -/
theorem removeLocation_removes_every_match (m : LocationManager) (name : String) :
    (m.removeLocation name).1.locations = m.locations.filter (fun loc => loc.name != name) ∧
    (∀ loc ∈ (m.removeLocation name).1.locations, loc.name ≠ name) ∧
    (∀ lat1 lon1 lat2 lon2 : Double,
      (((m.addLocation ⟨name, lat1, lon1⟩).addLocation ⟨name, lat2, lon2⟩).removeLocation
        name).1.locations = m.locations.filter (fun loc => loc.name != name)) := by
  refine ⟨removeLocation_locations m name, ?_, ?_⟩
  · intro loc hloc
    rw [removeLocation_locations] at hloc
    simpa using (List.mem_filter.1 hloc).2
  · intro lat1 lon1 lat2 lon2
    rw [removeLocation_locations]
    simp [LocationManager.addLocation, List.filter_append, List.filter_cons]

/-- C2: when no entry of the registry carries `name`, `removeLocation name` returns the
registry as it was and prints the not-found message, and nothing else. -/
theorem removeLocation_not_found (m : LocationManager) (name : String)
    (h : ∀ loc ∈ m.locations, loc.name ≠ name) :
    (m.removeLocation name).1 = m ∧
    (m.removeLocation name).2 = [(Channel.cout, "Location Not Found.\n")] ∧
    (Channel.cout, "Location Removed Successfully.\n") ∉ (m.removeLocation name).2 := by
  rw [removeLocation_absent m name h]
  refine ⟨rfl, rfl, ?_⟩
  simp

theorem removeLocation_not_found_witness :
    ((LocationManager.mk [⟨"CityA", Double.d75, Double.zero⟩]).removeLocation "CityB").1
      = LocationManager.mk [⟨"CityA", Double.d75, Double.zero⟩] ∧
    ((LocationManager.mk [⟨"CityA", Double.d75, Double.zero⟩]).removeLocation "CityB").2
      = [(Channel.cout, "Location Not Found.\n")] ∧
    (Channel.cout, "Location Removed Successfully.\n") ∉
      ((LocationManager.mk [⟨"CityA", Double.d75, Double.zero⟩]).removeLocation "CityB").2 :=
  removeLocation_not_found (LocationManager.mk [⟨"CityA", Double.d75, Double.zero⟩]) "CityB"
    (by decide)

/-- C3: after `addLocation` of each element of `locs` in turn on an empty manager, the vector
is `locs`; `listLocations` prints the notice alone when `locs` is empty and otherwise one line
per location, the i-th line showing the i-th location added, `locs.length` lines in all. -/
theorem listLocations_after_adds (fmt : Double → String) (locs : List Location) :
    (locs.foldl LocationManager.addLocation ⟨[]⟩).locations = locs ∧
    (locs.foldl LocationManager.addLocation ⟨[]⟩).listLocations fmt
      = (if locs.isEmpty then [noLocationsNotice] else locs.map (locationLine fmt)) ∧
    ((locs.foldl LocationManager.addLocation ⟨[]⟩).listLocations fmt).length
      = (if locs.isEmpty then 1 else locs.length) ∧
    (∀ i : Fin locs.length,
      ((locs.foldl LocationManager.addLocation ⟨[]⟩).listLocations fmt).get? i.val
        = some (locationLine fmt (locs.get i))) := by
  have hl : (locs.foldl LocationManager.addLocation ⟨[]⟩).locations = locs := by
    simp [foldl_addLocation]
  have hout : (locs.foldl LocationManager.addLocation ⟨[]⟩).listLocations fmt
      = (if locs.isEmpty then [noLocationsNotice] else locs.map (locationLine fmt)) := by
    simp only [LocationManager.listLocations, hl]
    rfl
  refine ⟨hl, hout, ?_, ?_⟩
  · rw [hout]; split <;> simp
  · intro i
    rw [hout]
    have hne : locs.isEmpty = false := by
      cases locs with
      | nil => exact absurd i.isLt (by simp)
      | cons a l => rfl
    simp [hne]

/-! ## WeatherVariable -/

theorem mapFind_mapOverwrite_self (name : String) (value : Double)
    (l : List (String × Double)) (h : mapFind name l ≠ none) :
    mapFind name (mapOverwrite name value l) = some value := by
  induction l with
  | nil => simp [mapFind] at h
  | cons e es ih =>
    by_cases hk : e.1 = name
    · simp [mapOverwrite, mapFind, hk]
    · have h2 : mapFind name es ≠ none := by simpa [mapFind, hk] using h
      simp [mapOverwrite, mapFind, hk, ih h2]

theorem mapFind_mapOverwrite_other (name other : String) (value : Double)
    (l : List (String × Double)) (hne : other ≠ name) :
    mapFind other (mapOverwrite name value l) = mapFind other l := by
  induction l with
  | nil => simp [mapOverwrite]
  | cons e es ih =>
    obtain ⟨k, x⟩ := e
    by_cases h : k = name
    · subst h
      simp [mapOverwrite, mapFind, Ne.symm hne]
    · by_cases h3 : k = other
      · subst h3
        simp [mapOverwrite, mapFind, h]
      · simp [mapOverwrite, mapFind, h, h3, ih]

theorem keys_mapOverwrite (name : String) (value : Double) (l : List (String × Double)) :
    (mapOverwrite name value l).map Prod.fst = l.map Prod.fst := by
  induction l with
  | nil => simp [mapOverwrite]
  | cons e es ih =>
    by_cases h : e.1 = name
    · simp [mapOverwrite, h]
    · simp [mapOverwrite, h, ih]

theorem mapFind_mapAssign_self (name : String) (value : Double) (l : List (String × Double)) :
    mapFind name (mapAssign name value l) = some value := by
  unfold mapAssign
  cases hf : mapFind name l with
  | none => simp [mapFind]
  | some v =>
    exact mapFind_mapOverwrite_self name value l (by simp [hf])

theorem mapFind_mapAssign_other (name other : String) (value : Double)
    (l : List (String × Double)) (hne : other ≠ name) :
    mapFind other (mapAssign name value l) = mapFind other l := by
  unfold mapAssign
  cases hf : mapFind name l with
  | none => simp [mapFind, Ne.symm hne]
  | some v => exact mapFind_mapOverwrite_other name other value l hne

theorem mapFind_eq_none (name : String) (l : List (String × Double)) :
    mapFind name l = none ↔ name ∉ l.map Prod.fst := by
  induction l with
  | nil => simp [mapFind]
  | cons e es ih =>
    by_cases h : e.1 = name
    · simp [mapFind, h]
    · simp only [mapFind, beq_iff_eq, h, if_false, ih, List.map_cons, List.mem_cons, not_or]
      exact ⟨fun h2 => ⟨Ne.symm h, h2⟩, fun h2 => h2.2⟩

theorem mapErase_eq_filter (name : String) (l : List (String × Double))
    (hu : (l.map Prod.fst).Nodup) :
    mapErase name l = l.filter (fun e => e.1 != name) := by
  induction l with
  | nil => simp [mapErase]
  | cons e es ih =>
    have hu2 : (es.map Prod.fst).Nodup := (List.nodup_cons.1 (by simpa using hu)).2
    have hnot : e.1 ∉ es.map Prod.fst := (List.nodup_cons.1 (by simpa using hu)).1
    by_cases h : e.1 = name
    · have hall : ∀ x ∈ es, (x.1 != name) = true := by
        intro x hx
        have : x.1 ≠ name := by
          intro hxe
          apply hnot
          rw [h, ← hxe]
          exact List.mem_map_of_mem Prod.fst hx
        simpa using this
      simp only [mapErase, h, beq_self_eq_true, if_true, List.filter_cons, bne_self_eq_false,
        Bool.false_eq_true, if_false]
      exact (List.filter_eq_self.2 hall).symm
    · simp [mapErase, h, List.filter_cons, ih hu2]

theorem mapFind_mapErase_other (name other : String) (l : List (String × Double))
    (hne : other ≠ name) : mapFind other (mapErase name l) = mapFind other l := by
  induction l with
  | nil => simp [mapErase]
  | cons e es ih =>
    obtain ⟨k, x⟩ := e
    by_cases h : k = name
    · subst h
      simp [mapErase, mapFind, Ne.symm hne]
    · by_cases h3 : k = other
      · subst h3
        simp [mapErase, mapFind, h]
      · simp [mapErase, mapFind, h, h3, ih]

theorem mapFind_mapErase_self (name : String) (l : List (String × Double))
    (hu : (l.map Prod.fst).Nodup) : mapFind name (mapErase name l) = none := by
  rw [mapFind_eq_none, mapErase_eq_filter name l hu]
  simp [List.mem_filter]

theorem uniqueKeys_mapAssign (name : String) (value : Double) (l : List (String × Double))
    (hu : (l.map Prod.fst).Nodup) : ((mapAssign name value l).map Prod.fst).Nodup := by
  unfold mapAssign
  cases hf : mapFind name l with
  | none =>
    simp only [List.map_cons, List.nodup_cons]
    exact ⟨(mapFind_eq_none name l).1 hf, hu⟩
  | some v =>
    show ((mapOverwrite name value l).map Prod.fst).Nodup
    rw [keys_mapOverwrite]; exact hu

/-- The container invariant holds of the empty store and is kept by `defineVariable` and
`removeVariable`. -/
theorem uniqueKeys_preserved (w : WeatherVariable) (name : String) (value : Double)
    (hu : w.UniqueKeys) :
    (WeatherVariable.mk []).UniqueKeys ∧ (w.defineVariable name value).UniqueKeys ∧
    (w.removeVariable name).1.UniqueKeys := by
  refine ⟨by simp [WeatherVariable.UniqueKeys], uniqueKeys_mapAssign name value w.vars hu, ?_⟩
  unfold WeatherVariable.removeVariable
  cases hf : mapFind name w.vars with
  | none => exact hu
  | some v =>
    show ((mapErase name w.vars).map Prod.fst).Nodup
    rw [mapErase_eq_filter name w.vars hu]
    exact (List.Nodup.sublist (List.Sublist.map _ (List.filter_sublist _)) hu)

/-- C4: after `defineVariable name v`, `getVariable name` returns `v` and prints no diagnostic,
whether or not `name` was defined before; on the empty store, defining "Temperature" as 75.0
and reading it back returns 75.0. -/
theorem getVariable_after_defineVariable (w : WeatherVariable) (name : String) (v : Double) :
    ((w.defineVariable name v).getVariable name).1 = v ∧
    ((w.defineVariable name v).getVariable name).2 = [] ∧
    (((WeatherVariable.mk []).defineVariable "Temperature" Double.d75).getVariable
      "Temperature").1 = Double.d75 := by
  have h : ∀ (w : WeatherVariable) (name : String) (v : Double),
      (w.defineVariable name v).getVariable name = (v, []) := by
    intro w name v
    simp [WeatherVariable.getVariable, WeatherVariable.defineVariable, mapFind_mapAssign_self]
  simp [h]

/-- C5, the claim as stated fails: on the empty store `getVariable "Humidity"` returns the same
number as on the store where "Humidity" is defined as 0.0. -/
theorem getVariable_zero_on_missing :
    ¬ (∀ (w : WeatherVariable) (name : String), mapFind name w.vars = none →
        (w.getVariable name).1 ≠ ((w.defineVariable name Double.zero).getVariable name).1) := by
  intro h
  exact h ⟨[]⟩ "Humidity" (by decide) (by decide)

/-- C5, amended: on a name that is not defined, `getVariable` prints the diagnostic
"Variable <name> not found." on `std::cerr` and returns 0.0; its return value is the one it
gives for the name defined as 0.0, and the printed diagnostic is what tells the two apart. -/
theorem getVariable_absent (w : WeatherVariable) (name : String)
    (h : mapFind name w.vars = none) :
    w.getVariable name
      = (Double.zero, [(Channel.cerr, "Variable " ++ name ++ " not found.\n")]) ∧
    (w.getVariable name).1 = ((w.defineVariable name Double.zero).getVariable name).1 ∧
    (w.getVariable name).2 ≠ ((w.defineVariable name Double.zero).getVariable name).2 := by
  have hd : (w.defineVariable name Double.zero).getVariable name = (Double.zero, []) := by
    simp [WeatherVariable.getVariable, WeatherVariable.defineVariable, mapFind_mapAssign_self]
  have ha : w.getVariable name
      = (Double.zero, [(Channel.cerr, "Variable " ++ name ++ " not found.\n")]) := by
    simp [WeatherVariable.getVariable, h]
  rw [hd, ha]
  simp

theorem getVariable_absent_witness :
    (WeatherVariable.mk [("Temperature", Double.d75)]).getVariable "Humidity"
      = (Double.zero, [(Channel.cerr, "Variable " ++ "Humidity" ++ " not found.\n")]) ∧
    ((WeatherVariable.mk [("Temperature", Double.d75)]).getVariable "Humidity").1
      = (((WeatherVariable.mk [("Temperature", Double.d75)]).defineVariable "Humidity"
          Double.zero).getVariable "Humidity").1 ∧
    ((WeatherVariable.mk [("Temperature", Double.d75)]).getVariable "Humidity").2
      ≠ (((WeatherVariable.mk [("Temperature", Double.d75)]).defineVariable "Humidity"
          Double.zero).getVariable "Humidity").2 :=
  getVariable_absent (WeatherVariable.mk [("Temperature", Double.d75)]) "Humidity" (by decide)

/-- C6: on a store with unique keys, `removeVariable name` on an undefined name prints the
not-found diagnostic and returns the store as it was; on a defined name it prints the
confirmation, leaves exactly the entries with another key, so that `name` is no longer found
and every other name is found with the value it had. -/
theorem removeVariable_frame (w : WeatherVariable) (name : String) (hu : w.UniqueKeys) :
    (mapFind name w.vars = none →
      w.removeVariable name
        = (w, [(Channel.cerr, "Variable " ++ name ++ " not found, cannot remove.\n")])) ∧
    (mapFind name w.vars ≠ none →
      (w.removeVariable name).2 = [(Channel.cout, "Variable removed successfully.\n")] ∧
      (w.removeVariable name).1.vars = w.vars.filter (fun e => e.1 != name) ∧
      mapFind name (w.removeVariable name).1.vars = none ∧
      (∀ other : String, other ≠ name →
        mapFind other (w.removeVariable name).1.vars = mapFind other w.vars)) := by
  constructor
  · intro h
    simp [WeatherVariable.removeVariable, h]
  · intro h
    obtain ⟨v, hv⟩ := Option.ne_none_iff_exists.1 h
    have hr : w.removeVariable name
        = ({ vars := mapErase name w.vars },
            [(Channel.cout, "Variable removed successfully.\n")]) := by
      simp [WeatherVariable.removeVariable, ← hv]
    rw [hr]
    refine ⟨rfl, mapErase_eq_filter name w.vars hu, mapFind_mapErase_self name w.vars hu, ?_⟩
    intro other hne
    exact mapFind_mapErase_other name other w.vars hne

theorem removeVariable_frame_witness :
    ((WeatherVariable.mk [("Temperature", Double.d75), ("Wind", Double.zero)]).removeVariable
        "Humidity"
      = (WeatherVariable.mk [("Temperature", Double.d75), ("Wind", Double.zero)],
          [(Channel.cerr, "Variable " ++ "Humidity" ++ " not found, cannot remove.\n")])) ∧
    ((WeatherVariable.mk [("Temperature", Double.d75), ("Wind", Double.zero)]).removeVariable
        "Temperature").1.vars = [("Wind", Double.zero)] :=
  ⟨(removeVariable_frame (WeatherVariable.mk [("Temperature", Double.d75), ("Wind", Double.zero)])
      "Humidity" (by decide)).1 (by decide),
   ((removeVariable_frame (WeatherVariable.mk [("Temperature", Double.d75), ("Wind", Double.zero)])
      "Temperature" (by decide)).2 (by decide)).2.1⟩

/-! ## The menu loop -/

/-- An integer that does not fit `int` ends the reading for good: whatever follows it, a
choice 5 included, the loop does not end. -/
theorem menu_overflow (fmt : Double → String)
    (iter : List (String × Double) → List (String × Double)) (w : WeatherVariable)
    (inp : MenuInput) (rest : List MenuInput)
    (h : inp.choice < INT_MIN ∨ INT_MAX < inp.choice) :
    WeatherVariable.menu fmt iter w (inp :: rest) = none := by
  simp [WeatherVariable.menu, h]

theorem curl_easy_perform_WriteCallback (chunks : List Chunk) (status : CURLcode)
    (userp : List Char)
    (hwf : ∀ c ∈ chunks, c.contents.length = c.size * c.nmemb ∧ c.size * c.nmemb < 2 ^ 64) :
    curl_easy_perform WriteCallback chunks status userp
      = (userp ++ concatChunks chunks, status) := by
  induction chunks generalizing userp with
  | nil => simp [curl_easy_perform, concatChunks]
  | cons c cs ih =>
    have hc := hwf c (List.mem_cons_self _ _)
    have hcs : ∀ x ∈ cs, x.contents.length = x.size * x.nmemb ∧ x.size * x.nmemb < 2 ^ 64 :=
      fun x hx => hwf x (List.mem_cons_of_mem _ hx)
    have hmod : c.size * c.nmemb % 2 ^ 64 = c.contents.length := by
      rw [Nat.mod_eq_of_lt hc.2, hc.1]
    have htake : c.contents.take (c.size * c.nmemb % 2 ^ 64) = c.contents := by
      rw [hmod, List.take_length]
    simp only [curl_easy_perform, WriteCallback, hmod, if_true]
    rw [← hmod, htake, ih _ hcs]
    simp [concatChunks]

theorem httpGet_result (net : String → Transfer) (strerror : CURLcode → String)
    (resInit : CURLcode) (url : String) (hh : (net url).handle = true)
    (hwf : ∀ c ∈ (net url).chunks,
      c.contents.length = c.size * c.nmemb ∧ c.size * c.nmemb < 2 ^ 64) :
    httpGet net strerror resInit url
      = if (net url).status ≠ CURLE_OK then
          ([], [(Channel.cerr,
            "curl_easy_perform() failed: " ++ strerror (net url).status ++ "\n")])
        else (concatChunks (net url).chunks, []) := by
  simp only [httpGet, hh, if_true, curl_easy_perform_WriteCallback _ _ _ hwf, List.nil_append]

/-- C8, the code at the call `main` makes: the forecast URL carries the whole argument in
`latitude` and the literal `...` in `longitude`, and so does the history URL; for every
argument the text after `&longitude=` is that literal. -/
theorem fetch_urls_at_main :
    fetchWeatherUrl "35.0,-78.0"
      = "https://api.open-meteo.com/v1/forecast?latitude=35.0,-78.0&longitude=..." ∧
    fetchHistoricalDataUrl "35.0,-78.0" "2024-09-10"
      = "https://api.open-meteo.com/v1/history?latitude=35.0,-78.0&longitude=...&date=2024-09-10"
    ∧ (∀ location date : String,
        fetchWeatherUrl location
          = "https://api.open-meteo.com/v1/forecast?latitude=" ++ location ++ "&longitude=..." ∧
        fetchHistoricalDataUrl location date
          = "https://api.open-meteo.com/v1/history?latitude=" ++ location ++ "&longitude=..."
            ++ "&date=" ++ date) := by
  refine ⟨by decide, by decide, ?_⟩
  intro location date
  exact ⟨rfl, rfl⟩

/-- C9: with a handle obtained and every chunk holding the `size * nmemb` bytes announced for
it, `fetchWeather` and `fetchHistoricalData` return the empty string when the transfer ends
with a code other than `CURLE_OK`, whatever chunks were delivered, and the bytes of all chunks
in delivery order when it ends with `CURLE_OK`; `WriteCallback` appends each chunk whole and
returns `size * nmemb`. -/
theorem fetch_returns_body (net : String → Transfer) (strerror : CURLcode → String)
    (resInit : CURLcode) (location date : String)
    (hh : (net (fetchWeatherUrl location)).handle = true)
    (hwf : ∀ c ∈ (net (fetchWeatherUrl location)).chunks,
      c.contents.length = c.size * c.nmemb ∧ c.size * c.nmemb < 2 ^ 64)
    (hh2 : (net (fetchHistoricalDataUrl location date)).handle = true)
    (hwf2 : ∀ c ∈ (net (fetchHistoricalDataUrl location date)).chunks,
      c.contents.length = c.size * c.nmemb ∧ c.size * c.nmemb < 2 ^ 64) :
    ((net (fetchWeatherUrl location)).status ≠ CURLE_OK →
      (fetchWeather net strerror resInit location).1 = []) ∧
    ((net (fetchWeatherUrl location)).status = CURLE_OK →
      fetchWeather net strerror resInit location
        = (concatChunks (net (fetchWeatherUrl location)).chunks, [])) ∧
    ((net (fetchHistoricalDataUrl location date)).status ≠ CURLE_OK →
      (fetchHistoricalData net strerror resInit location date).1 = []) ∧
    ((net (fetchHistoricalDataUrl location date)).status = CURLE_OK →
      fetchHistoricalData net strerror resInit location date
        = (concatChunks (net (fetchHistoricalDataUrl location date)).chunks, [])) ∧
    (∀ c ∈ (net (fetchWeatherUrl location)).chunks ++
        (net (fetchHistoricalDataUrl location date)).chunks, ∀ userp : List Char,
      WriteCallback c.contents c.size c.nmemb userp
        = (userp ++ c.contents, c.size * c.nmemb)) := by
  refine ⟨?_, ?_, ?_, ?_, ?_⟩
  · intro hs
    simp [fetchWeather, httpGet_result net strerror resInit _ hh hwf, hs]
  · intro hs
    simp [fetchWeather, httpGet_result net strerror resInit _ hh hwf, hs]
  · intro hs
    simp [fetchHistoricalData, httpGet_result net strerror resInit _ hh2 hwf2, hs]
  · intro hs
    simp [fetchHistoricalData, httpGet_result net strerror resInit _ hh2 hwf2, hs]
  · intro c hc userp
    have h : c.contents.length = c.size * c.nmemb ∧ c.size * c.nmemb < 2 ^ 64 := by
      rcases List.mem_append.1 hc with h | h
      · exact hwf c h
      · exact hwf2 c h
    have hmod : c.size * c.nmemb % 2 ^ 64 = c.contents.length := by
      rw [Nat.mod_eq_of_lt h.2, h.1]
    simp only [WriteCallback, hmod, List.take_length]
    rw [h.1]

theorem fetch_returns_body_witness :
    fetchWeather (fun _ => ⟨true, [⟨['o', 'k'], 1, 2⟩, ⟨['!'], 1, 1⟩], CURLE_OK⟩)
        (fun _ => "error") 7 "35.0,-78.0" = (['o', 'k', '!'], []) ∧
    (fetchHistoricalData (fun _ => ⟨true, [⟨['o', 'k'], 1, 2⟩, ⟨['!'], 1, 1⟩], 28⟩)
        (fun _ => "error") 7 "35.0,-78.0" "2024-09-10").1 = [] :=
  ⟨(fetch_returns_body (fun _ => ⟨true, [⟨['o', 'k'], 1, 2⟩, ⟨['!'], 1, 1⟩], CURLE_OK⟩)
      (fun _ => "error") 7 "35.0,-78.0" "2024-09-10" rfl (by decide) rfl (by decide)).2.1 rfl,
   (fetch_returns_body (fun _ => ⟨true, [⟨['o', 'k'], 1, 2⟩, ⟨['!'], 1, 1⟩], 28⟩)
      (fun _ => "error") 7 "35.0,-78.0" "2024-09-10" rfl (by decide) rfl (by decide)).2.2.1
      (by decide)⟩

/-! ## Export -/

theorem foldl_csvRecord (fmt : Double → String) (data : List (String × Double)) (acc : String) :
    data.foldl (fun file pair => file ++ pair.1 ++ "," ++ fmt pair.2 ++ "\n") acc
      = acc ++ concatText (data.map (csvRecord fmt)) := by
  induction data generalizing acc with
  | nil => simp [concatText]
  | cons pair rest ih =>
    rw [List.foldl_cons, ih, List.map_cons, concatText]
    simp only [csvRecord, String.append_assoc]

/-- C7: on a path that opens, `exportToCSV` writes the header line followed by one record
`<name>,<value>` and a line feed per entry, in the iteration order of the mapping, and nothing
else, and prints nothing; the records are as many as the entries. With 75.0 printed as `75`,
the mapping holding "Temperature" as 75.0 gives the two lines `Variable,Value` and
`Temperature,75`. -/
theorem exportToCSV_text (fmt : Double → String) (canOpen : String → Bool) (filename : String)
    (data : List (String × Double)) (hopen : canOpen filename = true)
    (h75 : fmt Double.d75 = "75") :
    exportToCSV fmt canOpen filename data
      = (some ("Variable,Value\n" ++ concatText (data.map (csvRecord fmt))), []) ∧
    (data.map (csvRecord fmt)).length = data.length ∧
    exportToCSV fmt canOpen filename [("Temperature", Double.d75)]
      = (some "Variable,Value\nTemperature,75\n", []) := by
  refine ⟨?_, by simp, ?_⟩
  · simp [exportToCSV, hopen, foldl_csvRecord]
  · simp only [exportToCSV, hopen, if_true, List.foldl_cons, List.foldl_nil, h75]
    decide

theorem exportToCSV_text_witness :
    exportToCSV (fun _ => "75") (fun _ => true) "weather_data.csv"
        [("Temperature", Double.d75), ("Wind", Double.d75)]
      = (some ("Variable,Value\n" ++ concatText
          ([("Temperature", Double.d75), ("Wind", Double.d75)].map (csvRecord (fun _ => "75")))),
          []) ∧
    ([("Temperature", Double.d75), ("Wind", Double.d75)].map
        (csvRecord (fun _ => "75"))).length = 2 ∧
    exportToCSV (fun _ => "75") (fun _ => true) "weather_data.csv" [("Temperature", Double.d75)]
      = (some "Variable,Value\nTemperature,75\n", []) :=
  exportToCSV_text (fun _ => "75") (fun _ => true) "weather_data.csv"
    [("Temperature", Double.d75), ("Wind", Double.d75)] rfl rfl

end WeatherTask
